import Mathlib

set_option autoImplicit false

/-!
Verification of the two interaction components of the Challenge2eVR scene:

* `grab-control` (src/assets/js/move-objects.js): proximity grabbing with a
  rigid six-degree-of-freedom physics constraint;
* `teleport-arc` (src/unnamed/part_000): ballistic teleport arc with raycast
  landing detection and rig relocation.

The embedding is shallow: the JavaScript handlers become pure Lean functions
over explicit state and environment records.  Scalars are exact rationals, so
the floating-point arithmetic of the source is modelled exactly; the source's
Euclidean-distance comparisons (`Vector3.distanceTo`, `length`) are modelled
on squared distances, which is equivalent because `sqrt` is strictly monotone
on nonnegative reals and every threshold is nonnegative (`0.3` becomes
`9/100` squared, `len > 0` becomes inequality of the endpoints).
External collaborators (THREE.js scene graph, the Ammo physics library, the
DOM event plumbing) are modelled at their call-site contracts, as documented
on each definition.
-/

/-- 3D vector over exact rationals, standing in for `THREE.Vector3` /
`Ammo.btVector3`.  Represented as a product so that the `AddCommGroup` and
`Module ℚ` instances (and decidable equality) come from the library. -/
abbrev Vec3 : Type := ℚ × ℚ × ℚ

namespace Vec3

/-- Squared Euclidean distance.  The source compares
`handPos.distanceTo(objPos)` (a square root) against thresholds; all such
comparisons are modelled on squares, which preserves every `<`/`≤`/`=`. -/
def distSq (a b : Vec3) : ℚ :=
  (a.1 - b.1) ^ 2 + (a.2.1 - b.2.1) ^ 2 + (a.2.2 - b.2.2) ^ 2

/-- Squared Euclidean norm. -/
def normSq (a : Vec3) : ℚ := a.1 ^ 2 + a.2.1 ^ 2 + a.2.2 ^ 2

end Vec3

/-! ## Transforms (Ammo `btTransform`)

Bullet represents a rigid transform as a 3×3 basis matrix plus an origin
vector, and `btTransform::inverse` transposes the basis (valid for the
orthonormal bases of rigid bodies).  The grab code applies `inverse` and
`op_mul` for their mathematical effect on the receiver (`handWorldInv` is
used as the inverted hand transform, `localFrameA` as the composition), so
the embedding gives those operations exactly that assignment semantics. -/

/-- 3×3 rational matrix standing in for Bullet's `btMatrix3x3`. -/
@[ext] structure Mat3 where
  a11 : ℚ
  a12 : ℚ
  a13 : ℚ
  a21 : ℚ
  a22 : ℚ
  a23 : ℚ
  a31 : ℚ
  a32 : ℚ
  a33 : ℚ
deriving DecidableEq, Repr

namespace Mat3

def one : Mat3 := ⟨1, 0, 0, 0, 1, 0, 0, 0, 1⟩

def mul (A B : Mat3) : Mat3 :=
  ⟨A.a11 * B.a11 + A.a12 * B.a21 + A.a13 * B.a31,
   A.a11 * B.a12 + A.a12 * B.a22 + A.a13 * B.a32,
   A.a11 * B.a13 + A.a12 * B.a23 + A.a13 * B.a33,
   A.a21 * B.a11 + A.a22 * B.a21 + A.a23 * B.a31,
   A.a21 * B.a12 + A.a22 * B.a22 + A.a23 * B.a32,
   A.a21 * B.a13 + A.a22 * B.a23 + A.a23 * B.a33,
   A.a31 * B.a11 + A.a32 * B.a21 + A.a33 * B.a31,
   A.a31 * B.a12 + A.a32 * B.a22 + A.a33 * B.a32,
   A.a31 * B.a13 + A.a32 * B.a23 + A.a33 * B.a33⟩

def transpose (A : Mat3) : Mat3 :=
  ⟨A.a11, A.a21, A.a31, A.a12, A.a22, A.a32, A.a13, A.a23, A.a33⟩

def mulVec (A : Mat3) (v : Vec3) : Vec3 :=
  (A.a11 * v.1 + A.a12 * v.2.1 + A.a13 * v.2.2,
   A.a21 * v.1 + A.a22 * v.2.1 + A.a23 * v.2.2,
   A.a31 * v.1 + A.a32 * v.2.1 + A.a33 * v.2.2)

theorem mul_assoc (A B C : Mat3) : (A.mul B).mul C = A.mul (B.mul C) := by
  simp only [mul, Mat3.mk.injEq]
  refine ⟨?_, ?_, ?_, ?_, ?_, ?_, ?_, ?_, ?_⟩ <;> ring

theorem one_mul (A : Mat3) : one.mul A = A := by
  simp only [mul, one]
  ext <;> ring

theorem mulVec_mulVec (A B : Mat3) (v : Vec3) :
    (A.mul B).mulVec v = A.mulVec (B.mulVec v) := by
  simp only [mul, mulVec, Prod.mk.injEq]
  refine ⟨?_, ?_, ?_⟩ <;> ring

theorem one_mulVec (v : Vec3) : one.mulVec v = v := by
  simp only [mulVec, one]
  refine Prod.ext ?_ (Prod.ext ?_ ?_) <;> simp

end Mat3

/-- Rigid transform (`Ammo.btTransform`): basis matrix plus origin. -/
@[ext] structure Transform where
  basis : Mat3
  origin : Vec3
deriving DecidableEq, Repr

namespace Transform

/-- `btTransform.setIdentity()`. -/
def id : Transform := ⟨Mat3.one, 0⟩

/-- Transform composition, Bullet's `operator*`:
basis multiplies, origin is `t.basis * u.origin + t.origin`.  The source's
`localFrameA.op_mul(handWorldInv, objWorld)` is used for its intended effect
of storing the composition in the receiver. -/
def comp (t u : Transform) : Transform :=
  ⟨t.basis.mul u.basis, t.basis.mulVec u.origin + t.origin⟩

/-- `btTransform.inverse()`: transpose the (orthonormal) basis and map the
negated origin through it, exactly Bullet's formula.  The source applies it
for its effect on `handWorldInv`. -/
def inv (t : Transform) : Transform :=
  ⟨t.basis.transpose, t.basis.transpose.mulVec (-t.origin)⟩

/-- When the basis is orthonormal (`A * Aᵀ = 1`, true of every rigid-body
world transform), re-applying a transform after its inverse is the identity:
the grab-time object pose is exactly reproduced by the hand pose composed
with the stored local frame. -/
theorem comp_inv_comp (t u : Transform)
    (h : t.basis.mul t.basis.transpose = Mat3.one) :
    t.comp ((Transform.inv t).comp u) = u := by
  have hb : (t.basis.mul (t.basis.transpose.mul u.basis)) = u.basis := by
    rw [← Mat3.mul_assoc, h, Mat3.one_mul]
  have ho : t.basis.mulVec
      (t.basis.transpose.mulVec u.origin + t.basis.transpose.mulVec (-t.origin))
        + t.origin = u.origin := by
    have h1 : t.basis.mulVec (t.basis.transpose.mulVec u.origin
        + t.basis.transpose.mulVec (-t.origin))
        = t.basis.mulVec (t.basis.transpose.mulVec u.origin)
          + t.basis.mulVec (t.basis.transpose.mulVec (-t.origin)) := by
      obtain ⟨x, y, z⟩ := u.origin
      obtain ⟨p, q, r⟩ := t.origin
      simp only [Mat3.mulVec, Mat3.transpose, Prod.mk.injEq, Prod.neg_mk,
        Prod.mk_add_mk]
      refine ⟨?_, ?_, ?_⟩ <;> ring
    rw [h1, ← Mat3.mulVec_mulVec, ← Mat3.mulVec_mulVec, h,
      Mat3.one_mulVec, Mat3.one_mulVec]
    abel
  simp only [comp, inv]
  ext1
  · exact hb
  · exact ho

end Transform

/-! ## Grab controller (`grab-control`, src/assets/js/move-objects.js) -/

/-- A scene entity as the grab scan sees it: one element of
`sceneEl.querySelectorAll('[ammo-body]')`.

* `eid` — identity, for the `el === this.el` self test;
* `movementType` — `getAttribute('movement')`: `none` models a missing or
  type-less movement descriptor, `some ty` a descriptor with `type: ty`;
* `hasMesh` — whether `el.getObject3D('mesh')` exists;
* `body` — `el.body`, the physics body with its world transform, when the
  body has been initialised;
* `worldPos` — `el.object3D.getWorldPosition(...)`. -/
structure Entity where
  eid : Nat
  movementType : Option String
  hasMesh : Bool
  body : Option Transform
  worldPos : Vec3
deriving DecidableEq, Repr

/-- The candidate loop of `onButtonDown`: walks the `[ammo-body]` entity list
keeping the running interaction radius `minD` (initially `0.3`, modelled by
its square `9/100`) and the current closest element.  Mirrors the source's
guards in order: skip self, skip non-`grabbable` movement, skip entities
without a `mesh` object, then update on a strictly smaller distance. -/
def scanLoop (selfId : Nat) (handPos : Vec3) :
    List Entity → ℚ → Option Entity → Option Entity
  | [], _, best => best
  | e :: rest, minD, best =>
    if e.eid = selfId then
      scanLoop selfId handPos rest minD best
    else if e.movementType = some "grabbable" then
      if e.hasMesh then
        if Vec3.distSq handPos e.worldPos < minD then
          scanLoop selfId handPos rest (Vec3.distSq handPos e.worldPos) (some e)
        else
          scanLoop selfId handPos rest minD best
      else
        scanLoop selfId handPos rest minD best
    else
      scanLoop selfId handPos rest minD best

/-- Target selection of `onButtonDown`: scan with initial radius `0.3`
(squared: `9/100`) and no current candidate. -/
def selectTarget (selfId : Nat) (handPos : Vec3) (els : List Entity) :
    Option Entity :=
  scanLoop selfId handPos els (9 / 100) none

/-- The filters an entity must pass in the scan, distance aside: not the hand
itself, movement descriptor of type `grabbable`, and a `mesh` object. -/
def eligible (selfId : Nat) (e : Entity) : Prop :=
  e.eid ≠ selfId ∧ e.movementType = some "grabbable" ∧ e.hasMesh = true

instance (selfId : Nat) (e : Entity) : Decidable (eligible selfId e) := by
  unfold eligible
  exact inferInstance

/-- An eligible entity strictly inside the interaction radius. -/
def candidate (selfId : Nat) (handPos : Vec3) (e : Entity) : Prop :=
  eligible selfId e ∧ Vec3.distSq handPos e.worldPos < 9 / 100

instance (selfId : Nat) (handPos : Vec3) (e : Entity) :
    Decidable (candidate selfId handPos e) := by
  unfold candidate
  exact inferInstance

namespace GrabScan

/-- Distance of the final selection: whenever the running best has distance
equal to the running radius, the result's distance never exceeds it. -/
theorem scanLoop_bound (selfId : Nat) (handPos : Vec3) :
    ∀ (l : List Entity) (minD : ℚ) (best : Option Entity) (s : Entity),
      (∀ x, best = some x → Vec3.distSq handPos x.worldPos = minD) →
      scanLoop selfId handPos l minD best = some s →
      Vec3.distSq handPos s.worldPos ≤ minD := by
  intro l
  induction l with
  | nil =>
    intro minD best s hb hs
    exact le_of_eq (hb s hs)
  | cons e rest ih =>
    intro minD best s hb hs
    simp only [scanLoop] at hs
    split_ifs at hs with h1 h2 h3 h4
    · exact ih minD best s hb hs
    · have hle := ih _ (some e) s (fun x hx => by cases hx; rfl) hs
      exact hle.trans h4.le
    · exact ih minD best s hb hs
    · exact ih minD best s hb hs
    · exact ih minD best s hb hs

/-- The selection is the untouched incoming best, or a member of the list that
passed every filter strictly inside the running radius. -/
theorem scanLoop_mem (selfId : Nat) (handPos : Vec3) :
    ∀ (l : List Entity) (minD : ℚ) (best : Option Entity) (s : Entity),
      scanLoop selfId handPos l minD best = some s →
      best = some s ∨
        (s ∈ l ∧ eligible selfId s ∧ Vec3.distSq handPos s.worldPos < minD) := by
  intro l
  induction l with
  | nil =>
    intro minD best s hs
    exact Or.inl hs
  | cons e rest ih =>
    intro minD best s hs
    simp only [scanLoop] at hs
    split_ifs at hs with h1 h2 h3 h4
    · rcases ih minD best s hs with h | ⟨hmem, helig, hd⟩
      · exact Or.inl h
      · exact Or.inr ⟨List.mem_cons_of_mem _ hmem, helig, hd⟩
    · rcases ih _ (some e) s hs with h | ⟨hmem, helig, hd⟩
      · cases h
        exact Or.inr ⟨List.mem_cons_self _ _, ⟨h1, h2, h3⟩, h4⟩
      · exact Or.inr ⟨List.mem_cons_of_mem _ hmem, helig, hd.trans h4⟩
    · rcases ih minD best s hs with h | ⟨hmem, helig, hd⟩
      · exact Or.inl h
      · exact Or.inr ⟨List.mem_cons_of_mem _ hmem, helig, hd⟩
    · rcases ih minD best s hs with h | ⟨hmem, helig, hd⟩
      · exact Or.inl h
      · exact Or.inr ⟨List.mem_cons_of_mem _ hmem, helig, hd⟩
    · rcases ih minD best s hs with h | ⟨hmem, helig, hd⟩
      · exact Or.inl h
      · exact Or.inr ⟨List.mem_cons_of_mem _ hmem, helig, hd⟩

/-- Minimality: the selection is at least as close as every eligible entity of
the scanned list. -/
theorem scanLoop_min (selfId : Nat) (handPos : Vec3) :
    ∀ (l : List Entity) (minD : ℚ) (best : Option Entity) (s : Entity),
      (∀ x, best = some x → Vec3.distSq handPos x.worldPos = minD) →
      scanLoop selfId handPos l minD best = some s →
      ∀ e ∈ l, eligible selfId e →
        Vec3.distSq handPos s.worldPos ≤ Vec3.distSq handPos e.worldPos := by
  intro l
  induction l with
  | nil =>
    intro minD best s _ _ e hmem
    cases hmem
  | cons e rest ih =>
    intro minD best s hb hs e' hmem helig
    simp only [scanLoop] at hs
    rcases List.mem_cons.mp hmem with rfl | hmem'
    · split_ifs at hs with h1 h2 h3 h4
      · exact absurd h1 helig.1
      · exact scanLoop_bound selfId handPos _ _ _ s
          (fun x hx => by cases hx; rfl) hs
      · have := scanLoop_bound selfId handPos _ _ _ s hb hs
        exact this.trans (not_lt.mp h4)
      · exact absurd helig.2.2 (by simp [h3])
      · exact absurd helig.2.1 h2
    · split_ifs at hs with h1 h2 h3 h4
      · exact ih minD best s hb hs e' hmem' helig
      · exact ih _ (some e) s (fun x hx => by cases hx; rfl) hs e' hmem' helig
      · exact ih minD best s hb hs e' hmem' helig
      · exact ih minD best s hb hs e' hmem' helig
      · exact ih minD best s hb hs e' hmem' helig

/-- Tie-break: either the incoming best survives with nothing in the list
beating the radius, or the list splits at the selection and every eligible
entity scanned before it is strictly farther. -/
theorem scanLoop_first (selfId : Nat) (handPos : Vec3) :
    ∀ (l : List Entity) (minD : ℚ) (best : Option Entity) (s : Entity),
      (∀ x, best = some x → Vec3.distSq handPos x.worldPos = minD) →
      scanLoop selfId handPos l minD best = some s →
      (best = some s ∧ ∀ e ∈ l, eligible selfId e →
          ¬ (Vec3.distSq handPos e.worldPos < minD)) ∨
        (∃ l₁ l₂, l = l₁ ++ s :: l₂ ∧
          Vec3.distSq handPos s.worldPos < minD ∧
          ∀ e ∈ l₁, eligible selfId e →
            Vec3.distSq handPos s.worldPos < Vec3.distSq handPos e.worldPos) := by
  intro l
  induction l with
  | nil =>
    intro minD best s _ hs
    exact Or.inl ⟨hs, by intro e hmem; cases hmem⟩
  | cons e rest ih =>
    intro minD best s hb hs
    simp only [scanLoop] at hs
    split_ifs at hs with h1 h2 h3 h4
    · rcases ih minD best s hb hs with ⟨hbs, hnone⟩ | ⟨l₁, l₂, hsplit, hlt, hbefore⟩
      · refine Or.inl ⟨hbs, ?_⟩
        intro x hx helig
        rcases List.mem_cons.mp hx with rfl | hx'
        · exact absurd h1 helig.1
        · exact hnone x hx' helig
      · refine Or.inr ⟨e :: l₁, l₂, by rw [hsplit]; rfl, hlt, ?_⟩
        intro x hx helig
        rcases List.mem_cons.mp hx with rfl | hx'
        · exact absurd h1 helig.1
        · exact hbefore x hx' helig
    · rcases ih _ (some e) s (fun x hx => by cases hx; rfl) hs with
        ⟨hbs, hnone⟩ | ⟨l₁, l₂, hsplit, hlt, hbefore⟩
      · cases hbs
        exact Or.inr ⟨[], rest, rfl, h4, by intro x hx; cases hx⟩
      · refine Or.inr ⟨e :: l₁, l₂, by rw [hsplit]; rfl, hlt.trans h4, ?_⟩
        intro x hx helig
        rcases List.mem_cons.mp hx with rfl | hx'
        · exact hlt
        · exact hbefore x hx' helig
    · rcases ih minD best s hb hs with ⟨hbs, hnone⟩ | ⟨l₁, l₂, hsplit, hlt, hbefore⟩
      · refine Or.inl ⟨hbs, ?_⟩
        intro x hx helig
        rcases List.mem_cons.mp hx with rfl | hx'
        · exact h4
        · exact hnone x hx' helig
      · refine Or.inr ⟨e :: l₁, l₂, by rw [hsplit]; rfl, hlt, ?_⟩
        intro x hx helig
        rcases List.mem_cons.mp hx with rfl | hx'
        · exact hlt.trans_le (not_lt.mp h4)
        · exact hbefore x hx' helig
    · rcases ih minD best s hb hs with ⟨hbs, hnone⟩ | ⟨l₁, l₂, hsplit, hlt, hbefore⟩
      · refine Or.inl ⟨hbs, ?_⟩
        intro x hx helig
        rcases List.mem_cons.mp hx with rfl | hx'
        · exact absurd helig.2.2 (by simp [h3])
        · exact hnone x hx' helig
      · refine Or.inr ⟨e :: l₁, l₂, by rw [hsplit]; rfl, hlt, ?_⟩
        intro x hx helig
        rcases List.mem_cons.mp hx with rfl | hx'
        · exact absurd helig.2.2 (by simp [h3])
        · exact hbefore x hx' helig
    · rcases ih minD best s hb hs with ⟨hbs, hnone⟩ | ⟨l₁, l₂, hsplit, hlt, hbefore⟩
      · refine Or.inl ⟨hbs, ?_⟩
        intro x hx helig
        rcases List.mem_cons.mp hx with rfl | hx'
        · exact absurd helig.2.1 h2
        · exact hnone x hx' helig
      · refine Or.inr ⟨e :: l₁, l₂, by rw [hsplit]; rfl, hlt, ?_⟩
        intro x hx helig
        rcases List.mem_cons.mp hx with rfl | hx'
        · exact absurd helig.2.1 h2
        · exact hbefore x hx' helig

/-- Once a best candidate exists, the scan always returns something. -/
theorem scanLoop_isSome_of_best (selfId : Nat) (handPos : Vec3) :
    ∀ (l : List Entity) (minD : ℚ) (x : Entity),
      (scanLoop selfId handPos l minD (some x)).isSome := by
  intro l
  induction l with
  | nil => intro minD x; rfl
  | cons e rest ih =>
    intro minD x
    simp only [scanLoop]
    split_ifs with h1 h2 h3 h4
    · exact ih minD x
    · exact ih _ e
    · exact ih minD x
    · exact ih minD x
    · exact ih minD x

/-- Completeness: an eligible entity strictly inside the running radius
guarantees a selection. -/
theorem scanLoop_exists (selfId : Nat) (handPos : Vec3) :
    ∀ (l : List Entity) (minD : ℚ) (best : Option Entity),
      (∃ e ∈ l, eligible selfId e ∧ Vec3.distSq handPos e.worldPos < minD) →
      (scanLoop selfId handPos l minD best).isSome := by
  intro l
  induction l with
  | nil =>
    intro minD best h
    obtain ⟨e, hmem, _⟩ := h
    cases hmem
  | cons e rest ih =>
    intro minD best ⟨e₀, hmem, helig, hd⟩
    simp only [scanLoop]
    split_ifs with h1 h2 h3 h4
    · rcases List.mem_cons.mp hmem with rfl | hmem'
      · exact absurd h1 helig.1
      · exact ih minD best ⟨e₀, hmem', helig, hd⟩
    · exact scanLoop_isSome_of_best selfId handPos rest _ e
    · rcases List.mem_cons.mp hmem with rfl | hmem'
      · exact absurd hd h4
      · exact ih minD best ⟨e₀, hmem', helig, hd⟩
    · rcases List.mem_cons.mp hmem with rfl | hmem'
      · exact absurd helig.2.2 (by simp [h3])
      · exact ih minD best ⟨e₀, hmem', helig, hd⟩
    · rcases List.mem_cons.mp hmem with rfl | hmem'
      · exact absurd helig.2.1 h2
      · exact ih minD best ⟨e₀, hmem', helig, hd⟩

end GrabScan

/-- JavaScript runtime errors the handlers can raise: `typeError` for a
property access or call on `undefined`, `referenceError` for reading an
undeclared global. -/
inductive JsErr where
  | typeError
  | referenceError
deriving DecidableEq, Repr

/-- Notifications and physics-body policy calls the grab controller makes,
in emission order: `el.emit('grab-start')`, `el.emit('grab-end')`,
`body.setActivationState(n)`. -/
inductive GEvent where
  | grabStart (eid : Nat)
  | grabEnd (eid : Nat)
  | setActivation (eid : Nat) (state : Nat)
deriving DecidableEq, Repr

/-- The `btGeneric6DofConstraint` built by `grab`: the two bodies, the two
local frames, the linear-reference flag passed to the constructor, and the
six limits installed right after construction.  (`addConstraint` is called
with collision filtering on; that flag lives in the physics world and plays
no part in any claim.) -/
structure Constraint where
  bodyA : Nat
  bodyB : Nat
  frameA : Transform
  frameB : Transform
  useLinearFrameA : Bool
  linLower : Vec3
  linUpper : Vec3
  angLower : Vec3
  angUpper : Vec3
deriving DecidableEq, Repr

/-- Component fields of `grab-control`: `this.constraint` and
`this.grabbedObject` (the grabbed entity reference). -/
structure GrabState where
  constraint : Option Constraint
  grabbedObject : Option Entity
deriving DecidableEq, Repr

/-- Host environment of one grab-controller event, frozen for its duration:

* `selfId` / `handPos` — the controller entity and its world position;
* `els` — `sceneEl.querySelectorAll('[ammo-body]')` in document order;
* `handBody` — `this.el.body` with its world transform, when initialised;
* `ammo` — whether the global `window.Ammo` library handle exists;
* `physics` — whether `sceneEl.systems.physics` (with its driver and
  physics world) exists;
* `ammoLower` — whether a global *binding named `ammo`* (lower case) exists.
  Neither source file declares one and the Ammo library only defines `Ammo`,
  so in the deployed page this is false; `release` reads the bare name. -/
structure GrabEnv where
  selfId : Nat
  handPos : Vec3
  els : List Entity
  handBody : Option Transform
  ammo : Bool
  physics : Bool
  ammoLower : Bool

/-- Result of one grab-controller event handler: the component state and the
physics world's constraint list at return (or at the uncaught throw), the
notifications emitted, and the error if the handler threw.  JavaScript field
mutations performed before a throw persist, which is why a result carries a
state even when `err` is set. -/
structure GrabRes where
  state : GrabState
  world : List Constraint
  events : List GEvent
  err : Option JsErr
deriving DecidableEq, Repr

/-- `grab(el)`.  Mirrors the source order: bail if either body handle is
missing; set `this.grabbedObject = el`; bail if `window.Ammo` is missing;
build the hand-local frame (`inverse` of the hand world transform composed
with the object world transform) and the identity object frame; create the
6-DOF constraint and zero all six limits; then register it through
`sceneEl.systems.physics.driver.physicsWorld` — a property chain that throws
a `TypeError` when the physics system is missing; finally emit `grab-start`
and force `DISABLE_DEACTIVATION` (4) on the object body. -/
def grab (env : GrabEnv) (world : List Constraint) (s : GrabState)
    (el : Entity) : GrabRes :=
  match env.handBody, el.body with
  | some handT, some objT =>
    let s1 : GrabState := { s with grabbedObject := some el }
    if env.ammo = false then
      ⟨s1, world, [], none⟩
    else
      let handWorldInv := Transform.inv handT
      let objWorld := objT
      let localFrameA := Transform.comp handWorldInv objWorld
      let localFrameB := Transform.id
      let c : Constraint :=
        { bodyA := env.selfId, bodyB := el.eid,
          frameA := localFrameA, frameB := localFrameB,
          useLinearFrameA := false,
          linLower := 0, linUpper := 0, angLower := 0, angUpper := 0 }
      let s2 : GrabState := { s1 with constraint := some c }
      if env.physics = false then
        ⟨s2, world, [], some JsErr.typeError⟩
      else
        ⟨s2, world ++ [c],
          [GEvent.grabStart el.eid, GEvent.setActivation el.eid 4], none⟩
  | _, _ => ⟨s, world, [], none⟩

/-- `onButtonDown`.  Returns immediately while something is held; otherwise
runs the proximity scan and grabs the selection, if any. -/
def onButtonDown (env : GrabEnv) (world : List Constraint) (s : GrabState) :
    GrabRes :=
  match s.grabbedObject with
  | some _ => ⟨s, world, [], none⟩
  | none =>
    match selectTarget env.selfId env.handPos env.els with
    | some el => grab env world s el
    | none => ⟨s, world, [], none⟩

/-- `release()`.  Mirrors the source order: bail if `this.constraint` is
null; `physicsSystem.driver.physicsWorld.removeConstraint(...)` (a
`TypeError` when the physics system is missing); then
`ammo.destroy(this.constraint)` — the bare identifier `ammo` is not in scope
in `release` (the `const ammo` of `grab` is local to `grab`), so unless the
page defines that global the statement throws a `ReferenceError`, after the
constraint was removed from the world but before `this.constraint` is
cleared.  Past that point: clear the constraint, and if an object is held,
restore its activation state (`ACTIVE_TAG`, 1 — a `TypeError` if its body
handle is gone), emit `grab-end` and clear the reference. -/
def release (env : GrabEnv) (world : List Constraint) (s : GrabState) :
    GrabRes :=
  match s.constraint with
  | none => ⟨s, world, [], none⟩
  | some c =>
    if env.physics = false then
      ⟨s, world, [], some JsErr.typeError⟩
    else
      let world1 := world.erase c
      if env.ammoLower = false then
        ⟨s, world1, [], some JsErr.referenceError⟩
      else
        let s1 : GrabState := { s with constraint := none }
        match s.grabbedObject with
        | none => ⟨s1, world1, [], none⟩
        | some o =>
          match o.body with
          | none => ⟨s1, world1, [], some JsErr.typeError⟩
          | some _ =>
            ⟨⟨none, none⟩, world1,
              [GEvent.setActivation o.eid 1, GEvent.grabEnd o.eid], none⟩

/-- `onButtonUp`: release only while holding something. -/
def onButtonUp (env : GrabEnv) (world : List Constraint) (s : GrabState) :
    GrabRes :=
  match s.grabbedObject with
  | some _ => release env world s
  | none => ⟨s, world, [], none⟩

/-- One activation step on the (state, physics-world) pair, for iterating
repeated button-down events. -/
def downStep (env : GrabEnv) (p : GrabState × List Constraint) :
    GrabState × List Constraint :=
  ((onButtonDown env p.2 p.1).state, (onButtonDown env p.2 p.1).world)

/-! ## Grab claims -/

/-- Scene for the C1 counterexample and the C10 witness: both entities carry
a physics body and `movement="type: grabbable"` and sit well inside the
interaction radius of a hand at the origin; `cexNoMesh` is strictly closer
to the hand but has no `mesh` object. -/
def cexNoMesh : Entity :=
  ⟨1, some "grabbable", false, some Transform.id, (1 / 10, 0, 0)⟩

def cexMesh : Entity :=
  ⟨2, some "grabbable", true, some Transform.id, (1 / 5, 0, 0)⟩

/-- **C1, counterexample.**  The claim's candidate filter (non-self,
grabbable, within radius `0.3`) admits `cexNoMesh`, which is strictly the
closest such candidate, yet the scan selects the farther `cexMesh`: the
code additionally requires a `mesh` object, so the claim as stated fails. -/
theorem grab_selects_farther_when_closest_lacks_mesh :
    selectTarget 0 0 [cexNoMesh, cexMesh] = some cexMesh
    ∧ cexNoMesh.eid ≠ 0
    ∧ cexNoMesh.movementType = some "grabbable"
    ∧ Vec3.distSq 0 cexNoMesh.worldPos < 9 / 100
    ∧ Vec3.distSq 0 cexNoMesh.worldPos < Vec3.distSq 0 cexMesh.worldPos := by
  refine ⟨?_, by decide, rfl, by norm_num [cexNoMesh, Vec3.distSq],
    by norm_num [cexNoMesh, cexMesh, Vec3.distSq]⟩
  norm_num [selectTarget, scanLoop, cexNoMesh, cexMesh, Vec3.distSq]

/-- **C1 (amended).**  No entity at squared distance `≥ (0.3)²` from the hand
is ever selected; and among the entities that are not the hand, are marked
`grabbable`, *have a mesh object*, and lie strictly within the radius, the
scan selects one of minimum distance, ties broken in favour of the first in
scan order, and selects something whenever such an entity exists. -/
theorem grab_selection_nearest_eligible (selfId : Nat) (handPos : Vec3)
    (els : List Entity) :
    (∀ e, selectTarget selfId handPos els = some e →
        e ∈ els ∧ eligible selfId e ∧ Vec3.distSq handPos e.worldPos < 9 / 100)
    ∧ (∀ s, selectTarget selfId handPos els = some s →
        ∀ e ∈ els, eligible selfId e →
          Vec3.distSq handPos s.worldPos ≤ Vec3.distSq handPos e.worldPos)
    ∧ (∀ s, selectTarget selfId handPos els = some s →
        ∃ l₁ l₂, els = l₁ ++ s :: l₂ ∧
          ∀ e ∈ l₁, eligible selfId e →
            Vec3.distSq handPos s.worldPos < Vec3.distSq handPos e.worldPos)
    ∧ ((∃ e ∈ els, candidate selfId handPos e) →
        (selectTarget selfId handPos els).isSome) := by
  have hb : ∀ x : Entity, (none : Option Entity) = some x →
      Vec3.distSq handPos x.worldPos = 9 / 100 := fun x hx => by cases hx
  refine ⟨?_, ?_, ?_, ?_⟩
  · intro e he
    rcases GrabScan.scanLoop_mem selfId handPos els _ _ e he with
      h | ⟨hm, helig, hd⟩
    · cases h
    · exact ⟨hm, helig, hd⟩
  · intro s hs e hmem helig
    exact GrabScan.scanLoop_min selfId handPos els _ _ s hb hs e hmem helig
  · intro s hs
    rcases GrabScan.scanLoop_first selfId handPos els _ _ s hb hs with
      ⟨h, _⟩ | ⟨l₁, l₂, h1, _, h3⟩
    · cases h
    · exact ⟨l₁, l₂, h1, h3⟩
  · intro h
    obtain ⟨e, hm, hc⟩ := h
    exact GrabScan.scanLoop_exists selfId handPos els _ _ ⟨e, hm, hc.1, hc.2⟩

/-- Scene for the C1 witness: two eligible meshed entities, the nearer one
second in scan order. -/
def wFar : Entity :=
  ⟨1, some "grabbable", true, some Transform.id, (1 / 5, 0, 0)⟩

def wNear : Entity :=
  ⟨2, some "grabbable", true, some Transform.id, (1 / 10, 0, 0)⟩

/-- Witness for the amended C1 at a concrete scene. -/
theorem grab_selection_nearest_eligible_witness :
    (selectTarget 0 0 [wFar, wNear]).isSome
    ∧ Vec3.distSq 0 wNear.worldPos ≤ Vec3.distSq 0 wFar.worldPos
    ∧ (wNear ∈ [wFar, wNear] ∧ eligible 0 wNear
        ∧ Vec3.distSq 0 wNear.worldPos < 9 / 100) :=
  ⟨(grab_selection_nearest_eligible 0 0 [wFar, wNear]).2.2.2
      ⟨wNear, by simp, ⟨by decide, rfl, rfl⟩,
        by norm_num [wNear, Vec3.distSq]⟩,
   (grab_selection_nearest_eligible 0 0 [wFar, wNear]).2.1 wNear
      (by norm_num [selectTarget, scanLoop, wFar, wNear, Vec3.distSq])
      wFar (by simp) ⟨by decide, rfl, rfl⟩,
   (grab_selection_nearest_eligible 0 0 [wFar, wNear]).1 wNear
      (by norm_num [selectTarget, scanLoop, wFar, wNear, Vec3.distSq])⟩

/-- **C10.**  An entity with no `mesh` object is never selected by the grab
scan, grabbable and in radius as it may be: the scan's `getObject3D('mesh')`
guard skips it. -/
theorem meshless_entity_never_selected (selfId : Nat) (handPos : Vec3)
    (els : List Entity) (e : Entity) (hmem : e ∈ els)
    (hgrab : e.movementType = some "grabbable")
    (hmesh : e.hasMesh = false)
    (hrad : Vec3.distSq handPos e.worldPos < 9 / 100) :
    selectTarget selfId handPos els ≠ some e := by
  intro h
  rcases GrabScan.scanLoop_mem selfId handPos els _ _ e h with
    h' | ⟨_, helig, _⟩
  · cases h'
  · simp [helig.2.2] at hmesh

/-- Witness for C10: the meshless closest candidate of the C1 scene is not
selected. -/
theorem meshless_entity_never_selected_witness :
    cexNoMesh ∈ [cexNoMesh, cexMesh]
    ∧ cexNoMesh.movementType = some "grabbable"
    ∧ cexNoMesh.hasMesh = false
    ∧ Vec3.distSq 0 cexNoMesh.worldPos < 9 / 100
    ∧ selectTarget 0 0 [cexNoMesh, cexMesh] ≠ some cexNoMesh :=
  ⟨by simp, rfl, rfl, by norm_num [cexNoMesh, Vec3.distSq],
   meshless_entity_never_selected 0 0 [cexNoMesh, cexMesh] cexNoMesh
     (by simp) rfl rfl (by norm_num [cexNoMesh, Vec3.distSq])⟩

/-- **C5.**  With both body handles and the `Ammo` handle present, grabbing
stores a constraint whose fixed offset `frameA` is the inverse of the hand's
world transform composed with the object's world transform, whose object
frame is the identity, and whose six limits are all zero width; and (for the
orthonormal basis of a rigid-body hand transform) the hand pose composed
with that offset reproduces the object's grab-time world pose — the object
is welded at its grab-time offset, not snapped to the hand's origin. -/
theorem grab_constraint_locked (env : GrabEnv) (world : List Constraint)
    (s : GrabState) (el : Entity) (handT objT : Transform)
    (hhand : env.handBody = some handT) (hobj : el.body = some objT)
    (hammo : env.ammo = true)
    (horth : handT.basis.mul handT.basis.transpose = Mat3.one) :
    (grab env world s el).state.constraint =
      some { bodyA := env.selfId, bodyB := el.eid,
             frameA := Transform.comp (Transform.inv handT) objT,
             frameB := Transform.id, useLinearFrameA := false,
             linLower := 0, linUpper := 0, angLower := 0, angUpper := 0 }
    ∧ Transform.comp handT (Transform.comp (Transform.inv handT) objT)
        = objT := by
  refine ⟨?_, Transform.comp_inv_comp handT objT horth⟩
  simp only [grab, hhand, hobj, hammo]
  split_ifs
  all_goals first
  | rfl
  | exact (‹False›).elim

/-- Hand transform for the C5 witness: a quarter-turn about the vertical
axis (orthonormal basis) at position `(1, 2, 3)`. -/
def wHandT : Transform := ⟨⟨0, -1, 0, 1, 0, 0, 0, 0, 1⟩, (1, 2, 3)⟩

def wObjT : Transform := ⟨Mat3.one, (2, 2, 3)⟩

def wElC5 : Entity := ⟨3, some "grabbable", true, some wObjT, (2, 2, 3)⟩

def wEnvC5 : GrabEnv := ⟨7, 0, [wElC5], some wHandT, true, true, false⟩

/-- Witness for C5 at a concrete grab. -/
theorem grab_constraint_locked_witness :
    (grab wEnvC5 [] ⟨none, none⟩ wElC5).state.constraint =
      some { bodyA := 7, bodyB := 3,
             frameA := Transform.comp (Transform.inv wHandT) wObjT,
             frameB := Transform.id, useLinearFrameA := false,
             linLower := 0, linUpper := 0, angLower := 0, angUpper := 0 }
    ∧ Transform.comp wHandT (Transform.comp (Transform.inv wHandT) wObjT)
        = wObjT :=
  grab_constraint_locked wEnvC5 [] ⟨none, none⟩ wElC5 wHandT wObjT rfl rfl rfl
    (by norm_num [wHandT, Mat3.mul, Mat3.transpose, Mat3.one])

/-- **C8.**  A button-down while an object is held is a complete no-op — the
state, the physics world, the emitted events, everything — and therefore any
number of repeated activations leaves the single session and its single
constraint untouched. -/
theorem buttonDown_noop_while_holding (env : GrabEnv)
    (world : List Constraint) (s : GrabState) (o : Entity)
    (h : s.grabbedObject = some o) :
    onButtonDown env world s = ⟨s, world, [], none⟩
    ∧ ∀ n : Nat, (downStep env)^[n] (s, world) = (s, world) := by
  have h1 : onButtonDown env world s = ⟨s, world, [], none⟩ := by
    simp only [onButtonDown, h]
  refine ⟨h1, fun n => Function.iterate_fixed ?_ n⟩
  simp only [downStep, h1]

def wHeld : Entity := ⟨5, some "grabbable", true, some Transform.id, 0⟩

def wConstr : Constraint :=
  ⟨9, 5, Transform.id, Transform.id, false, 0, 0, 0, 0⟩

def wEnvC8 : GrabEnv := ⟨9, 0, [wHeld], some Transform.id, true, true, false⟩

/-- Holding state: one constraint in hand, one object reference. -/
def wStateC8 : GrabState := ⟨some wConstr, some wHeld⟩

/-- Witness for C8: two repeated activations while holding change nothing. -/
theorem buttonDown_noop_while_holding_witness :
    onButtonDown wEnvC8 [wConstr] wStateC8 = ⟨wStateC8, [wConstr], [], none⟩
    ∧ (downStep wEnvC8)^[2] (wStateC8, [wConstr]) = (wStateC8, [wConstr]) :=
  ⟨(buttonDown_noop_while_holding wEnvC8 [wConstr] wStateC8 wHeld rfl).1,
   (buttonDown_noop_while_holding wEnvC8 [wConstr] wStateC8 wHeld rfl).2 2⟩

/-- Entity and environment for the C9 counterexample: a valid nearby
grabbable with both body handles present, but no `window.Ammo`. -/
def wGrabbable : Entity :=
  ⟨1, some "grabbable", true, some Transform.id, (1 / 10, 0, 0)⟩

def wNoAmmoEnv : GrabEnv :=
  ⟨0, 0, [wGrabbable], some Transform.id, false, true, false⟩

/-- **C9, counterexample.**  With the physics-library handle missing the
claim says the controller remains idle with the grabbed-object reference
still null; but `grab` assigns `this.grabbedObject = el` *before* it checks
`window.Ammo`, so the button-down leaves the reference set (while indeed
creating no constraint, emitting nothing, and not throwing). -/
theorem grab_missing_ammo_sets_reference :
    (onButtonDown wNoAmmoEnv [] ⟨none, none⟩).state.grabbedObject
        = some wGrabbable
    ∧ (onButtonDown wNoAmmoEnv [] ⟨none, none⟩).state.constraint = none
    ∧ (onButtonDown wNoAmmoEnv [] ⟨none, none⟩).events = []
    ∧ (onButtonDown wNoAmmoEnv [] ⟨none, none⟩).err = none := by
  have hsel : selectTarget 0 0 [wGrabbable] = some wGrabbable := by
    norm_num [selectTarget, scanLoop, wGrabbable, Vec3.distSq]
  have h : onButtonDown wNoAmmoEnv [] ⟨none, none⟩
      = grab wNoAmmoEnv [] ⟨none, none⟩ wGrabbable := by
    simp only [onButtonDown, wNoAmmoEnv, hsel]
  rw [h]
  exact ⟨rfl, rfl, rfl, rfl⟩

/-- **C9 (amended).**  Grab failure modes as the code implements them:
a missing body handle aborts with no state change at all; a missing
physics-library handle (`window.Ammo`) creates no constraint, emits nothing
and does not throw, but leaves the grabbed-object reference set to the
target; a missing physics subsystem (bodies and library present) throws a
`TypeError` at the `physicsSystem.driver` access, after the grabbed-object
reference and the constraint field were set, with nothing registered in the
physics world and nothing emitted. -/
theorem grab_failure_modes (env : GrabEnv) (world : List Constraint)
    (s : GrabState) (el : Entity) :
    ((env.handBody = none ∨ el.body = none) →
      grab env world s el = ⟨s, world, [], none⟩)
    ∧ (∀ handT objT, env.handBody = some handT → el.body = some objT →
        env.ammo = false →
        grab env world s el = ⟨⟨s.constraint, some el⟩, world, [], none⟩)
    ∧ (∀ handT objT, env.handBody = some handT → el.body = some objT →
        env.ammo = true → env.physics = false →
        (grab env world s el).err = some JsErr.typeError
        ∧ (grab env world s el).world = world
        ∧ (grab env world s el).events = []
        ∧ (grab env world s el).state.grabbedObject = some el
        ∧ (grab env world s el).state.constraint.isSome) := by
  refine ⟨?_, ?_, ?_⟩
  · rintro (h | h)
    · cases hb : el.body <;> simp only [grab, h, hb]
    · cases hh : env.handBody <;> simp only [grab, h, hh]
  · intro handT objT hh ho ha
    simp only [grab, hh, ho, ha, if_true]
  · intro handT objT hh ho ha hp
    simp only [grab, hh, ho, ha, hp]
    refine ⟨?_, ?_, ?_, ?_, ?_⟩ <;> rfl

def wNoBodyEl : Entity := ⟨2, some "grabbable", true, none, (1 / 10, 0, 0)⟩

def wEnvNoPhys : GrabEnv :=
  ⟨0, 0, [wGrabbable], some Transform.id, true, false, false⟩

/-- Witness for the amended C9, one concrete input per failure mode. -/
theorem grab_failure_modes_witness :
    grab wEnvNoPhys [] ⟨none, none⟩ wNoBodyEl = ⟨⟨none, none⟩, [], [], none⟩
    ∧ grab wNoAmmoEnv [] ⟨none, none⟩ wGrabbable
        = ⟨⟨none, some wGrabbable⟩, [], [], none⟩
    ∧ (grab wEnvNoPhys [] ⟨none, none⟩ wGrabbable).err
        = some JsErr.typeError :=
  ⟨(grab_failure_modes wEnvNoPhys [] ⟨none, none⟩ wNoBodyEl).1 (Or.inr rfl),
   (grab_failure_modes wNoAmmoEnv [] ⟨none, none⟩ wGrabbable).2.1
      Transform.id Transform.id rfl rfl rfl,
   ((grab_failure_modes wEnvNoPhys [] ⟨none, none⟩ wGrabbable).2.2
      Transform.id Transform.id rfl rfl rfl rfl).1⟩

/-- **C3.**  Evaluation at the failing input: releasing while holding (with
the physics system present and, as in the deployed page, no global binding
named `ammo`) throws a `ReferenceError` at `ammo.destroy(this.constraint)`.
The constraint was removed from the physics world, but the component state
is left fully intact — `this.constraint` and `this.grabbedObject` are not
cleared and no `grab-end` is emitted — contradicting the claim that release
always fully clears both and never fails fatally.  The no-op half of the
claim does hold: with nothing held, release changes nothing. -/
theorem release_throws_while_holding :
    (release wEnvC8 [wConstr] wStateC8).err = some JsErr.referenceError
    ∧ (release wEnvC8 [wConstr] wStateC8).state = wStateC8
    ∧ (release wEnvC8 [wConstr] wStateC8).events = []
    ∧ onButtonUp wEnvC8 [wConstr] wStateC8 = release wEnvC8 [wConstr] wStateC8
    ∧ release wEnvC8 [] ⟨none, none⟩ = ⟨⟨none, none⟩, [], [], none⟩ := by
  refine ⟨rfl, rfl, rfl, rfl, rfl⟩

/-! ## Teleport controller (`teleport-arc`, src/unnamed/part_000) -/

/-- A coordinate frame, standing in for the world matrix of the rig's parent
node: `toWorld` is `localToWorld` (applying the world matrix), `toLocal` is
`Object3D.worldToLocal` (applying its inverse).  The cancellation law
`toWorld ∘ toLocal = id` that any actual scene-graph matrix pair satisfies
is taken as a hypothesis where a theorem needs it. -/
structure Frame where
  toWorld : Vec3 → Vec3
  toLocal : Vec3 → Vec3

/-- The player rig entity (`this.cameraRig`), as `doTeleport` uses it:
only its parent frame matters for the position assignment.  The source's
`ammo-body` branch collapses into the direct-assignment path: under the Ammo
driver a rig body exposes `setWorldTransform`, so the branch evaluates
`new CANNON`, which throws (`CANNON` is nowhere defined in this Ammo-based
project) and is caught by the `try`/`catch` whose handler performs exactly
the same `worldToLocal` + `position.copy` assignment as the body-less
paths. -/
structure TeleRig where
  parent : Option Frame

/-- One entry of the raycaster's intersection list: the intersection point
and, when the intersected object has an owning entity with a class list
(`obj.el && el.classList`), that class list. -/
structure RayHit where
  point : Vec3
  elClasses : Option (List String)

/-- Host environment of a teleport-arc event or frame:

* `camera` — `sceneEl.camera`'s world position, when a camera exists;
* `rig` — `this.cameraRig`, when the rig reference is non-null;
* `origin` — `this.el.object3D.getWorldPosition(...)`;
* `dir` — `this.el.object3D.getWorldDirection(...)`.  THREE returns a
  unit-length vector here, so the source's subsequent `normalize()` is the
  identity on it; theorems carry the unit-norm fact as a hypothesis;
* `raycast a b` — the scene raycast for the segment from `a` towards `b`:
  `raycaster.set(a, normalize(b − a))`, `raycaster.far = |b − a|`,
  `intersectObjects(sceneEl.object3D.children, true)`, in THREE's order. -/
structure TeleEnv where
  camera : Option Vec3
  rig : Option TeleRig
  origin : Vec3
  dir : Vec3
  raycast : Vec3 → Vec3 → List RayHit

/-- Component schema of `teleport-arc` (`samples`, `velocity`, `gravity`,
`landingClass`; the `rig` selector lives in `TeleEnv.rig`). -/
structure TeleConfig where
  samples : Nat
  velocity : ℚ
  gravity : Vec3
  landingClass : String

/-- The schema defaults: 30 samples, velocity 6.0, gravity (0, −9.8, 0),
landing class "teleportable". -/
def defaultTeleConfig : TeleConfig :=
  ⟨30, 6, (0, -(49 / 5), 0), "teleportable"⟩

/-- Mutable component state of `teleport-arc`: the `visible` flag, the
recorded landing hit, the arc line and cursor visibility, the cursor
position, and the rig's local position (`rigEl.object3D.position`, relevant
only when the environment has a rig). -/
structure TeleState where
  visible : Bool
  hitPoint : Option Vec3
  lineVisible : Bool
  cursorVisible : Bool
  cursorPos : Vec3
  rigLocal : Vec3
deriving DecidableEq, Repr

/-- `showArc`: set the visible flag, show the line, hide the cursor. -/
def showArc (st : TeleState) : TeleState :=
  { st with visible := true, lineVisible := true, cursorVisible := false }

/-- `hideArc`: clear the visible flag, hide line and cursor, clear the
landing hit. -/
def hideArc (st : TeleState) : TeleState :=
  { st with visible := false, lineVisible := false, cursorVisible := false,
            hitPoint := none }

/-- The rig's world position: its local position seen through the parent
frame (`getWorldPosition`), or the local position itself for a parentless
rig. -/
def rigWorld (rig : TeleRig) (st : TeleState) : Vec3 :=
  match rig.parent with
  | some f => f.toWorld st.rigLocal
  | none => st.rigLocal

/-- `doTeleport`.  Mirrors the source: return unless aiming; with a recorded
hit and a rig reference, return early (before `hideArc`!) when the scene has
no camera, otherwise compute `offset = cameraWorldPos − rigWorldPos` and
`newRigWorld = hitPoint − offset`, convert through the parent with
`worldToLocal` when the rig has a parent, and assign the rig position (all
three source branches perform this same assignment, see `TeleRig`); in the
remaining cases fall through.  Finally `hideArc`. -/
def doTeleport (env : TeleEnv) (st : TeleState) : TeleState :=
  if st.visible = false then st
  else
    match st.hitPoint, env.rig with
    | some hit, some rig =>
      match env.camera with
      | none => st
      | some cameraWorldPos =>
        let rigWorldPos := rigWorld rig st
        let offset := cameraWorldPos - rigWorldPos
        let newRigWorld := hit - offset
        let newLocal :=
          match rig.parent with
          | some f => f.toLocal newRigWorld
          | none => newRigWorld
        hideArc { st with rigLocal := newLocal }
    | _, _ => hideArc st

/-- The closed-form projectile sample of `tick`:
`pos = worldPos + v0·t + g·(0.5·t·t)` with `t = i * 0.06`. -/
def trajPoint (origin v0 g : Vec3) (i : Nat) : Vec3 :=
  origin + ((i : ℚ) * (3 / 50)) • v0
    + ((1 / 2) * ((i : ℚ) * (3 / 50)) * ((i : ℚ) * (3 / 50))) • g

/-- The inner intersection loop of `tick`: the first entry of the
intersection list whose owning entity's class list contains the landing
class (`el && el.classList && el.classList.contains(landingClass)`). -/
def firstLanding (cls : String) : List RayHit → Option Vec3
  | [] => none
  | h :: hs =>
    match h.elClasses with
    | some cs => if cls ∈ cs then some h.point else firstLanding cls hs
    | none => firstLanding cls hs

/-- The landing test of segment `j`, between samples `j` and `j+1`: skipped
when the segment has zero length (`len > 0` fails, and a zero-range ray can
intersect nothing), otherwise the first landing-class intersection returned
by the scene raycast along the segment. -/
def segHit (env : TeleEnv) (cls : String) (v0 g : Vec3) (j : Nat) :
    Option Vec3 :=
  if trajPoint env.origin v0 g (j + 1) = trajPoint env.origin v0 g j then
    none
  else
    firstLanding cls
      (env.raycast (trajPoint env.origin v0 g j)
        (trajPoint env.origin v0 g (j + 1)))

/-- The sampling loop of `tick`: `n` iterations remain, `i` is the sample
index, `prev` the previous sample (none on the first iteration).  Each
iteration computes the closed-form sample, writes it, and from the second
sample on raycasts the segment from the previous sample, breaking out of
both loops at the first landing hit.  Returns the samples written this
frame and the hit, if any. -/
def tickLoop (env : TeleEnv) (cls : String) (v0 g : Vec3) :
    Nat → Nat → Option Vec3 → List Vec3 × Option Vec3
  | 0, _, _ => ([], none)
  | n + 1, i, prev =>
    let pos := trajPoint env.origin v0 g i
    let hitHere : Option Vec3 :=
      match prev with
      | some p =>
        if pos = p then none
        else firstLanding cls (env.raycast p pos)
      | none => none
    match hitHere with
    | some hp => ([pos], some hp)
    | none =>
      let r := tickLoop env cls v0 g n (i + 1) (some pos)
      (pos :: r.1, r.2)

/-- The per-frame sampling of `tick`: `samples` iterations from index 0 with
no previous point, initial velocity `forward * velocity` (the forward
direction is THREE's unit-length world direction, on which the source's
`normalize()` is the identity) and the configured gravity. -/
def tickSamples (cfg : TeleConfig) (env : TeleEnv) :
    List Vec3 × Option Vec3 :=
  tickLoop env cfg.landingClass (cfg.velocity • env.dir) cfg.gravity
    cfg.samples 0 none

/-- Smallest segment index in `[i, i + n)` whose landing test fires. -/
def firstHitSeg (env : TeleEnv) (cls : String) (v0 g : Vec3) :
    Nat → Nat → Option Nat
  | _, 0 => none
  | i, n + 1 =>
    match segHit env cls v0 g i with
    | some _ => some i
    | none => firstHitSeg env cls v0 g (i + 1) n

/-- The `tick` handler's effect on the component state: nothing while
hidden; while aiming, record the landing hit (and park the cursor there,
kept invisible) or clear it when no segment hit. -/
def tick (cfg : TeleConfig) (env : TeleEnv) (st : TeleState) : TeleState :=
  if st.visible = false then st
  else
    match (tickSamples cfg env).2 with
    | some hp =>
      { st with hitPoint := some hp, cursorPos := hp, cursorVisible := false }
    | none => { st with hitPoint := none, cursorVisible := false }

/-! ## Teleport claims: doTeleport -/

/-- **C2.**  With the arc visible, a recorded landing hit, a rig and a
camera, `doTeleport` captures `offset = cameraWorldPos − rigWorldPos`
before moving and assigns the rig the world position `hitPoint − offset`
(written through the parent's `worldToLocal`), so the rig's world position
after the jump is exactly `hitPoint − offset` — the camera's world offset
from the rig is preserved; the handler then transitions to Hidden. -/
theorem doTeleport_preserves_offset (env : TeleEnv) (st : TeleState)
    (rig : TeleRig) (f : Frame) (cam hit : Vec3)
    (hv : st.visible = true) (hh : st.hitPoint = some hit)
    (hr : env.rig = some rig) (hc : env.camera = some cam)
    (hp : rig.parent = some f)
    (hf : ∀ v, f.toWorld (f.toLocal v) = v) :
    rigWorld rig (doTeleport env st) = hit - (cam - rigWorld rig st)
    ∧ (doTeleport env st).visible = false
    ∧ (doTeleport env st).hitPoint = none := by
  obtain ⟨vis, hitP, lv, cv, cp, rl⟩ := st
  obtain ⟨camE, rigE, origin, dir, ray⟩ := env
  obtain ⟨par⟩ := rig
  simp only at hv hh hr hc
  simp only at hp
  subst hv hh hr hc hp
  refine ⟨?_, rfl, rfl⟩
  exact hf _

/-- Translation frame for the teleport witnesses. -/
def wFrame : Frame := ⟨fun v => v + (1, 2, 3), fun v => v - (1, 2, 3)⟩

def wRig : TeleRig := ⟨some wFrame⟩

def wTeleEnv : TeleEnv :=
  ⟨some (0, 2, 0), some wRig, 0, (0, 0, -1), fun _ _ => []⟩

/-- Aiming state with a recorded hit at `(5, 0, −5)`. -/
def wAimState : TeleState := ⟨true, some (5, 0, -5), true, false, 0, 0⟩

/-- Witness for C2 at a concrete teleport. -/
theorem doTeleport_preserves_offset_witness :
    rigWorld wRig (doTeleport wTeleEnv wAimState)
        = (5, 0, -5) - ((0, 2, 0) - rigWorld wRig wAimState)
    ∧ (doTeleport wTeleEnv wAimState).visible = false
    ∧ (doTeleport wTeleEnv wAimState).hitPoint = none :=
  doTeleport_preserves_offset wTeleEnv wAimState wRig wFrame (0, 2, 0)
    (5, 0, -5) rfl rfl rfl rfl rfl (fun v => by simp [wFrame])

/-- Environment with a rig but no camera. -/
def wNoCamEnv : TeleEnv := ⟨none, some wRig, 0, (0, 0, -1), fun _ _ => []⟩

/-- **C4, counterexample.**  With the arc visible, a hit recorded and a rig
available but the camera missing, `doTeleport` returns through the early
`if (!camera) return;` without calling `hideArc`: the controller does *not*
transition to Hidden — the state is entirely unchanged, arc still visible,
landing hit still recorded — contradicting the claim's "in all cases". -/
theorem doTeleport_missing_camera_stays_aiming :
    doTeleport wNoCamEnv wAimState = wAimState
    ∧ wAimState.visible = true
    ∧ wAimState.hitPoint = some (5, 0, -5) :=
  ⟨rfl, rfl, rfl⟩

/-- **C4 (amended).**  While aiming: with no recorded hit or no rig, no rig
movement occurs and the controller transitions to Hidden (arc line and
indicator hidden, landing hit cleared, rig position untouched); with a hit
and a rig but no camera, no movement occurs and the handler returns early,
leaving the controller Aiming with the hit still recorded. -/
theorem doTeleport_failure_transitions (env : TeleEnv) (st : TeleState) :
    (st.visible = true → (st.hitPoint = none ∨ env.rig = none) →
      doTeleport env st = hideArc st)
    ∧ (∀ hit rig, st.visible = true → st.hitPoint = some hit →
        env.rig = some rig → env.camera = none →
        doTeleport env st = st)
    ∧ (hideArc st).rigLocal = st.rigLocal
    ∧ (hideArc st).visible = false
    ∧ (hideArc st).lineVisible = false
    ∧ (hideArc st).cursorVisible = false
    ∧ (hideArc st).hitPoint = none := by
  refine ⟨?_, ?_, rfl, rfl, rfl, rfl, rfl⟩
  · intro hv hor
    obtain ⟨vis, hitP, lv, cv, cp, rl⟩ := st
    obtain ⟨camE, rigE, origin, dir, ray⟩ := env
    simp only at hv hor
    subst hv
    rcases hor with h | h
    · subst h; rfl
    · subst h
      cases hitP <;> rfl
  · intro hit rig hv hh hr hc
    obtain ⟨vis, hitP, lv, cv, cp, rl⟩ := st
    obtain ⟨camE, rigE, origin, dir, ray⟩ := env
    simp only at hv hh hr hc
    subst hv hh hr hc
    rfl

/-- Aiming state with no recorded hit. -/
def wNoHitState : TeleState := ⟨true, none, true, false, 0, (4, 4, 4)⟩

/-- Witness for the amended C4: the hidden transition with no hit, and the
unchanged state with hit and rig but no camera. -/
theorem doTeleport_failure_transitions_witness :
    doTeleport wNoCamEnv wNoHitState = hideArc wNoHitState
    ∧ doTeleport wNoCamEnv wAimState = wAimState
    ∧ (hideArc wNoHitState).rigLocal = wNoHitState.rigLocal
    ∧ (hideArc wNoHitState).visible = false :=
  ⟨(doTeleport_failure_transitions wNoCamEnv wNoHitState).1 rfl (Or.inl rfl),
   (doTeleport_failure_transitions wNoCamEnv wAimState).2.1 (5, 0, -5) wRig
      rfl rfl rfl rfl,
   (doTeleport_failure_transitions wNoCamEnv wNoHitState).2.2.1,
   (doTeleport_failure_transitions wNoCamEnv wNoHitState).2.2.2.1⟩

/-! ## Teleport claims: per-frame sampling -/

/-- `firstHitSeg` really is the first firing segment: the result is inside
the scanned window, its landing test fires, and the test of every earlier
scanned segment is clear. -/
theorem firstHitSeg_bounds (env : TeleEnv) (cls : String) (v0 g : Vec3) :
    ∀ (n i j : Nat), firstHitSeg env cls v0 g i n = some j →
      i ≤ j ∧ j < i + n ∧ (segHit env cls v0 g j).isSome
        ∧ ∀ k, i ≤ k → k < j → segHit env cls v0 g k = none := by
  intro n
  induction n with
  | zero =>
    intro i j h
    simp only [firstHitSeg] at h
    cases h
  | succ n ih =>
    intro i j h
    simp only [firstHitSeg] at h
    rcases hs : segHit env cls v0 g i with _ | hp
    · rw [hs] at h
      obtain ⟨h1, h2, h3, h4⟩ := ih (i + 1) j h
      refine ⟨by omega, by omega, h3, ?_⟩
      intro k hk1 hk2
      rcases Nat.eq_or_lt_of_le hk1 with rfl | hlt
      · exact hs
      · exact h4 k hlt hk2
    · rw [hs] at h
      cases h
      refine ⟨le_refl _, by omega, by rw [hs]; rfl, ?_⟩
      intro k hk1 hk2
      omega

/-- Characterisation of the sampling loop from its second iteration on:
starting at index `i + 1` with previous sample `i`, the loop writes the
closed-form samples of the contiguous index range up to (and including) the
sample just after the first firing segment — all `n` remaining samples when
no segment fires — and returns that segment's landing test as the hit. -/
theorem tickLoop_go (env : TeleEnv) (cls : String) (v0 g : Vec3) :
    ∀ (n i : Nat),
      tickLoop env cls v0 g n (i + 1) (some (trajPoint env.origin v0 g i)) =
        match firstHitSeg env cls v0 g i n with
        | none =>
          ((List.range' (i + 1) n).map (trajPoint env.origin v0 g), none)
        | some j =>
          ((List.range' (i + 1) (j - i + 1)).map (trajPoint env.origin v0 g),
            segHit env cls v0 g j) := by
  intro n
  induction n with
  | zero =>
    intro i
    rfl
  | succ n ih =>
    intro i
    have hunfold : tickLoop env cls v0 g (n + 1) (i + 1)
        (some (trajPoint env.origin v0 g i)) =
        match segHit env cls v0 g i with
        | some hp => ([trajPoint env.origin v0 g (i + 1)], some hp)
        | none =>
          (trajPoint env.origin v0 g (i + 1) ::
              (tickLoop env cls v0 g n (i + 1 + 1)
                (some (trajPoint env.origin v0 g (i + 1)))).1,
            (tickLoop env cls v0 g n (i + 1 + 1)
              (some (trajPoint env.origin v0 g (i + 1)))).2) := rfl
    rw [hunfold]
    simp only [firstHitSeg]
    rcases hs : segHit env cls v0 g i with _ | hp
    · simp only [ih (i + 1)]
      rcases hf : firstHitSeg env cls v0 g (i + 1) n with _ | j
      · simp only [List.range'_succ, List.map_cons]
      · have hb := (firstHitSeg_bounds env cls v0 g n (i + 1) j hf).1
        have harith2 : j - i + 1 = (j - i - 1 + 1) + 1 := by omega
        have harith3 : j - (i + 1) + 1 = j - i - 1 + 1 := by omega
        simp only [harith3, harith2, List.range'_succ, List.map_cons]
    · simp only [hs, Nat.sub_self, Nat.zero_add, List.range'_one,
        List.map_cons, List.map_nil]

/-- Full characterisation of one frame's sampling: the samples written are
the closed-form parabola points of `0, 1, …` — all `samples` of them when no
segment hits, exactly up to the sample after the first hitting segment `j`
otherwise — and the returned hit is that segment's landing test. -/
theorem tickSamples_spec (cfg : TeleConfig) (env : TeleEnv) :
    tickSamples cfg env =
      match firstHitSeg env cfg.landingClass (cfg.velocity • env.dir)
          cfg.gravity 0 (cfg.samples - 1) with
      | none =>
        ((List.range cfg.samples).map
            (trajPoint env.origin (cfg.velocity • env.dir) cfg.gravity),
          none)
      | some j =>
        ((List.range (j + 2)).map
            (trajPoint env.origin (cfg.velocity • env.dir) cfg.gravity),
          segHit env cfg.landingClass (cfg.velocity • env.dir)
            cfg.gravity j) := by
  rcases hn : cfg.samples with _ | n
  · simp only [tickSamples, hn, tickLoop, firstHitSeg, List.range_zero,
      List.map_nil]
  · have h0 : tickSamples cfg env =
        (trajPoint env.origin (cfg.velocity • env.dir) cfg.gravity 0 ::
            (tickLoop env cfg.landingClass (cfg.velocity • env.dir)
              cfg.gravity n (0 + 1)
              (some (trajPoint env.origin (cfg.velocity • env.dir)
                cfg.gravity 0))).1,
          (tickLoop env cfg.landingClass (cfg.velocity • env.dir)
            cfg.gravity n (0 + 1)
            (some (trajPoint env.origin (cfg.velocity • env.dir)
              cfg.gravity 0))).2) := by
      rw [tickSamples, hn]
      rfl
    rw [h0, tickLoop_go env cfg.landingClass (cfg.velocity • env.dir)
      cfg.gravity n 0]
    simp only [Nat.add_sub_cancel]
    rcases hf : firstHitSeg env cfg.landingClass (cfg.velocity • env.dir)
        cfg.gravity 0 n with _ | j
    · simp only [List.range_eq_range', List.range'_succ, List.map_cons,
        Nat.zero_add]
    · simp only [Nat.sub_zero, List.range_eq_range', List.range'_succ,
        List.map_cons, Nat.zero_add]

/-- **C6.**  While aiming, every trajectory sample written in a frame obeys
the closed-form parabola `origin + v0·(i·dt) + ½·g·(i·dt)²` with
`dt = 0.06`, `v0` the (unit-length) forward direction scaled by the
configured velocity and `g` the configured gravity, starting at `i = 0`;
and when no landing hit cuts the loop short all `samples` points are
written. -/
theorem trajectory_samples_parabola (cfg : TeleConfig) (env : TeleEnv)
    (hdir : Vec3.normSq env.dir = 1) :
    (∀ i (hi : i < (tickSamples cfg env).1.length),
        (tickSamples cfg env).1.get ⟨i, hi⟩
          = env.origin + ((i : ℚ) * (3 / 50)) • (cfg.velocity • env.dir)
            + ((1 / 2) * ((i : ℚ) * (3 / 50)) ^ 2) • cfg.gravity)
    ∧ ((tickSamples cfg env).2 = none →
        (tickSamples cfg env).1.length = cfg.samples) := by
  have hspec := tickSamples_spec cfg env
  have hshape : ∃ m, (tickSamples cfg env).1 =
      (List.range m).map
        (trajPoint env.origin (cfg.velocity • env.dir) cfg.gravity)
      ∧ ((tickSamples cfg env).2 = none → m = cfg.samples) := by
    rcases hf : firstHitSeg env cfg.landingClass (cfg.velocity • env.dir)
        cfg.gravity 0 (cfg.samples - 1) with _ | j
    · rw [hf] at hspec
      exact ⟨cfg.samples, by rw [hspec], fun _ => rfl⟩
    · rw [hf] at hspec
      refine ⟨j + 2, by rw [hspec], ?_⟩
      intro hnone
      have h2 : (tickSamples cfg env).2 = segHit env cfg.landingClass
          (cfg.velocity • env.dir) cfg.gravity j := by rw [hspec]
      rw [h2] at hnone
      have hsome := (firstHitSeg_bounds env cfg.landingClass
        (cfg.velocity • env.dir) cfg.gravity (cfg.samples - 1) 0 j hf).2.2.1
      rw [hnone] at hsome
      cases hsome
  obtain ⟨m, hm, hmn⟩ := hshape
  constructor
  · intro i hi
    have hsq : ((1 : ℚ) / 2) * ((i : ℚ) * (3 / 50)) ^ 2
        = (1 / 2) * ((i : ℚ) * (3 / 50)) * ((i : ℚ) * (3 / 50)) := by
      ring
    rw [hsq]
    have hi2 : i < ((List.range m).map
        (trajPoint env.origin (cfg.velocity • env.dir) cfg.gravity)).length := by
      rw [← hm]
      exact hi
    rw [List.get_of_eq hm ⟨i, hi⟩]
    simp [List.get_eq_getElem, List.getElem_map, List.getElem_range, trajPoint]
  · intro h2
    rw [hm, List.length_map, List.length_range]
    exact hmn h2

/-- `firstLanding` really accepts the *first* landing-class intersection:
the intersection list splits at the accepted entry, which carries the class,
and no earlier entry with a class list carries it. -/
theorem firstLanding_first (cls : String) :
    ∀ (hits : List RayHit) (p : Vec3), firstLanding cls hits = some p →
      ∃ l₁ h l₂, hits = l₁ ++ h :: l₂
        ∧ (∃ cs, h.elClasses = some cs ∧ cls ∈ cs)
        ∧ p = h.point
        ∧ ∀ h2 ∈ l₁, ∀ cs, h2.elClasses = some cs → cls ∉ cs := by
  intro hits
  induction hits with
  | nil =>
    intro p h
    simp only [firstLanding] at h
    cases h
  | cons a rest ih =>
    intro p h
    simp only [firstLanding] at h
    rcases ha : a.elClasses with _ | cs
    · simp only [ha] at h
      obtain ⟨l₁, hh, l₂, hsplit, hcls, hpt, hbefore⟩ := ih p h
      refine ⟨a :: l₁, hh, l₂, by rw [hsplit]; rfl, hcls, hpt, ?_⟩
      intro h2 hmem cs2 hcs2
      rcases List.mem_cons.mp hmem with rfl | hmem'
      · rw [ha] at hcs2
        cases hcs2
      · exact hbefore h2 hmem' cs2 hcs2
    · simp only [ha] at h
      by_cases hin : cls ∈ cs
      · rw [if_pos hin] at h
        cases h
        exact ⟨[], a, rest, rfl, ⟨cs, ha, hin⟩, rfl,
          by intro h2 hmem; cases hmem⟩
      · rw [if_neg hin] at h
        obtain ⟨l₁, hh, l₂, hsplit, hcls, hpt, hbefore⟩ := ih p h
        refine ⟨a :: l₁, hh, l₂, by rw [hsplit]; rfl, hcls, hpt, ?_⟩
        intro h2 hmem cs2 hcs2
        rcases List.mem_cons.mp hmem with rfl | hmem'
        · rw [ha] at hcs2
          cases hcs2
          exact hin
        · exact hbefore h2 hmem' cs2 hcs2

/-- **C7.**  While aiming, the frame update records exactly the sampling
loop's hit as the landing hit (clearing it when there is none); the hit, if
any, is the landing test of the *first* hitting segment — all earlier
segments test clear — and sampling stops right after that segment (`j + 2`
samples written); with no hit every sample is written and the hit is
cleared; the accepted intersection is the first in raycast order whose
owning entity carries the landing class; and hiding the arc clears the
hit. -/
theorem tick_landing_detection (cfg : TeleConfig) (env : TeleEnv)
    (st : TeleState) (hv : st.visible = true) :
    (tick cfg env st).hitPoint = (tickSamples cfg env).2
    ∧ (∀ j, firstHitSeg env cfg.landingClass (cfg.velocity • env.dir)
          cfg.gravity 0 (cfg.samples - 1) = some j →
        (tickSamples cfg env).2
            = segHit env cfg.landingClass (cfg.velocity • env.dir)
              cfg.gravity j
        ∧ (tickSamples cfg env).1.length = j + 2
        ∧ ∀ k, k < j → segHit env cfg.landingClass (cfg.velocity • env.dir)
            cfg.gravity k = none)
    ∧ (firstHitSeg env cfg.landingClass (cfg.velocity • env.dir)
          cfg.gravity 0 (cfg.samples - 1) = none →
        (tickSamples cfg env).2 = none
        ∧ (tickSamples cfg env).1.length = cfg.samples)
    ∧ (∀ hits p, firstLanding cfg.landingClass hits = some p →
        ∃ l₁ h l₂, hits = l₁ ++ h :: l₂
          ∧ (∃ cs, h.elClasses = some cs ∧ cfg.landingClass ∈ cs)
          ∧ p = h.point
          ∧ ∀ h2 ∈ l₁, ∀ cs, h2.elClasses = some cs →
              cfg.landingClass ∉ cs)
    ∧ (hideArc st).hitPoint = none := by
  have hspec := tickSamples_spec cfg env
  refine ⟨?_, ?_, ?_, fun hits p => firstLanding_first cfg.landingClass hits p,
    rfl⟩
  · rw [tick, if_neg (by simp [hv])]
    rcases h : (tickSamples cfg env).2 with _ | hp <;> rfl
  · intro j hj
    rw [hj] at hspec
    refine ⟨by rw [hspec], by rw [hspec]; simp, ?_⟩
    intro k hk
    exact (firstHitSeg_bounds env cfg.landingClass (cfg.velocity • env.dir)
      cfg.gravity (cfg.samples - 1) 0 j hj).2.2.2 k (Nat.zero_le k) hk
  · intro hnone
    rw [hnone] at hspec
    exact ⟨by rw [hspec], by rw [hspec]; simp⟩

/-- Teleport-arc configuration for the sampling witnesses: 3 samples,
velocity 1, zero gravity, landing class "teleportable". -/
def cfgW6 : TeleConfig := ⟨3, 1, ((0 : ℚ), (0 : ℚ), (0 : ℚ)), "teleportable"⟩

/-- Environment with nothing to hit (empty raycast results). -/
def envW6 : TeleEnv :=
  ⟨none, none, ((0 : ℚ), (0 : ℚ), (0 : ℚ)), ((0 : ℚ), (0 : ℚ), (-1 : ℚ)),
    fun _ _ => []⟩

/-- Witness for C6 at a concrete no-hit frame: all three samples are
written and sample 2 is on the parabola. -/
theorem trajectory_samples_parabola_witness :
    Vec3.normSq envW6.dir = 1
    ∧ (tickSamples cfgW6 envW6).2 = none
    ∧ (tickSamples cfgW6 envW6).1.length = 3
    ∧ (tickSamples cfgW6 envW6).1.get
        ⟨2, by norm_num [tickSamples, tickLoop, trajPoint, firstLanding,
          envW6, cfgW6, Prod.ext_iff]⟩
        = envW6.origin + ((2 : ℚ) * (3 / 50)) • (cfgW6.velocity • envW6.dir)
          + ((1 / 2) * ((2 : ℚ) * (3 / 50)) ^ 2) • cfgW6.gravity := by
  have hdir : Vec3.normSq envW6.dir = 1 := by norm_num [Vec3.normSq, envW6]
  have hnone : (tickSamples cfgW6 envW6).2 = none := by
    norm_num [tickSamples, tickLoop, trajPoint, firstLanding, envW6, cfgW6,
      Prod.ext_iff]
  exact ⟨hdir, hnone, (trajectory_samples_parabola cfgW6 envW6 hdir).2 hnone,
    (trajectory_samples_parabola cfgW6 envW6 hdir).1 2 _⟩

/-- An intersection whose owning entity carries the landing class. -/
def hitRay : RayHit := ⟨((1 : ℚ), (2 : ℚ), (3 : ℚ)), some ["teleportable"]⟩

/-- Environment whose raycast reports `hitRay` on every segment. -/
def envW7 : TeleEnv :=
  ⟨none, none, ((0 : ℚ), (0 : ℚ), (0 : ℚ)), ((0 : ℚ), (0 : ℚ), (-1 : ℚ)),
    fun _ _ => [hitRay]⟩

/-- Witness for C7 at a concrete frame that hits on the first segment. -/
theorem tick_landing_detection_witness :
    (tick cfgW6 envW7 wAimState).hitPoint = (tickSamples cfgW6 envW7).2
    ∧ (tickSamples cfgW6 envW7).2
        = segHit envW7 cfgW6.landingClass (cfgW6.velocity • envW7.dir)
          cfgW6.gravity 0
    ∧ (tickSamples cfgW6 envW7).1.length = 0 + 2
    ∧ (hideArc wAimState).hitPoint = none := by
  have hj : firstHitSeg envW7 cfgW6.landingClass (cfgW6.velocity • envW7.dir)
      cfgW6.gravity 0 (cfgW6.samples - 1) = some 0 := by
    norm_num [firstHitSeg, segHit, trajPoint, firstLanding, cfgW6, envW7,
      hitRay, Prod.ext_iff]
  exact ⟨(tick_landing_detection cfgW6 envW7 wAimState rfl).1,
    ((tick_landing_detection cfgW6 envW7 wAimState rfl).2.1 0 hj).1,
    ((tick_landing_detection cfgW6 envW7 wAimState rfl).2.1 0 hj).2.1,
    (tick_landing_detection cfgW6 envW7 wAimState rfl).2.2.2.2⟩
